import Mathlib

/-!
Shallow embedding of `src/voice_assistant.py` (a LiveKit voice assistant
with a vision tool stub) and proofs of its specified properties.

The Python file has four pieces of first-party logic:
* `AssistantFunction` — a tool context holding `latest_image` (the most
  recently cached video frame), with the tool `analyze_image` and the
  mutator `update_image`;
* `get_video_track` — polls the room up to 30 times, one second apart,
  for a remote video track;
* `process_video` — a background loop that repeatedly acquires a track
  and caches each decoded frame, catching and logging errors;
* `entrypoint` — the lifecycle: connect, build agent and tool context,
  build and start the session, greet, spawn the video task, idle until
  disconnect, then cancel and await the video task, swallowing the
  cancellation error.

Async effects are embedded explicitly: time-varying inputs become
functions from a step counter, awaited external results become script
parameters, and the unbounded loops take a fuel argument and return
`Option` (`none` = still running after `fuel` steps).
-/

namespace VoiceAssistant

/-- A decoded video frame (`rtc.VideoFrame`); its payload is abstracted
to a natural number since the Python code never inspects it. -/
structure VideoFrame where
  data : Nat
deriving DecidableEq

/-- The tool-context state of `AssistantFunction`: its single mutable
field `latest_image`, initialized to `None`. -/
structure AssistantFunction where
  latest_image : Option VideoFrame
deriving DecidableEq

/-- `AssistantFunction.__init__`: `self.latest_image = None`. -/
def AssistantFunction.init : AssistantFunction :=
  { latest_image := none }

/-- `AssistantFunction.analyze_image(self, user_msg)`: prints the trigger
message (not modelled), then returns one of two fixed strings depending
on the truthiness of `self.latest_image`; the state is threaded through
unchanged since the body never assigns to `self`. -/
def analyze_image (s : AssistantFunction) (user_msg : String) :
    String × AssistantFunction :=
  if s.latest_image.isSome then
    ("I can see the current video feed. Let me analyze what\x27s visible.", s)
  else
    ("I don\x27t currently have access to any images to analyze.", s)

/-- `AssistantFunction.update_image(self, image)`:
`self.latest_image = image`. -/
def update_image (s : AssistantFunction) (image : VideoFrame) :
    AssistantFunction :=
  { s with latest_image := some image }

/-- A published media track: either an `rtc.RemoteVideoTrack` or some
other track kind (audio, local, ...), identified by its `sid`. -/
inductive Track where
  | remoteVideo (sid : String)
  | other (sid : String)
deriving DecidableEq

/-- The `isinstance(track, rtc.RemoteVideoTrack)` test. -/
def Track.isRemoteVideo : Track → Bool
  | .remoteVideo _ => true
  | .other _ => false

/-- A track publication; its `track` field is `None` until subscribed. -/
structure TrackPublication where
  track : Option Track
deriving DecidableEq

/-- A remote participant with its `track_publications` values, in
dictionary iteration order. -/
structure Participant where
  track_publications : List TrackPublication
deriving DecidableEq

/-- A snapshot of the room: its `remote_participants` values, in
dictionary iteration order. -/
structure Room where
  remote_participants : List Participant
deriving DecidableEq

/-- One scan of the nested loops inside `get_video_track`: the first
publication (over participants, then publications, in order) whose
`track` is not `None` and is a remote video track. -/
def find_video_track (room : Room) : Option Track :=
  room.remote_participants.findSome? fun p =>
    p.track_publications.findSome? fun pub =>
      match pub.track with
      | some t => if t.isRemoteVideo then some t else none
      | none => none

/-- The `for _ in range(30)` polling loop of `get_video_track`. `snap i`
is the room as observed on attempt `i` (the room mutates between the
one-second sleeps). Returns the found track (or `none` when the budget
is exhausted) paired with the number of one-second sleeps performed. -/
def get_video_track_loop (snap : Nat → Room) : Nat → Nat → Option Track × Nat
  | i, 0 => (none, i)
  | i, fuel + 1 =>
    match find_video_track (snap i) with
    | some t => (some t, i)
    | none => get_video_track_loop snap (i + 1) fuel

/-- `get_video_track(room)`: poll up to 30 times, sleeping one second
after each failed scan. -/
def get_video_track (snap : Nat → Room) : Option Track × Nat :=
  get_video_track_loop snap 0 30

/-- The externally determined outcome of one iteration of the `while`
loop inside `process_video`: either `get_video_track` returned `None`,
or a track was found and the `VideoStream` delivered `frames` and then
either ended normally (`err = none`) or raised (`err = some e`; this
also covers `get_video_track` itself raising, with `frames = []`). -/
inductive IterOutcome where
  | noTrack
  | stream (frames : List VideoFrame) (err : Option String)
deriving DecidableEq

/-- The body of the inner `try` of `process_video`, for one iteration:
each delivered frame is cached via `function_ctx.update_image`, and the
result records whether the body raised. -/
def process_video_iter (s : AssistantFunction) :
    IterOutcome → AssistantFunction × Except String Unit
  | .noTrack => (s, Except.ok ())
  | .stream frames err =>
    (frames.foldl update_image s,
      match err with
      | some e => Except.error e
      | none => Except.ok ())

/-- The `while connection_state == CONN_CONNECTED` loop of
`process_video`, with its inner `try/except`: an iteration that raises
is caught and logged (print, sleep one second) and the loop continues;
an iteration that does not raise also continues (after a two-second
sleep in the no-track case). `conn t` is the connection check observed
at iteration `t`, `script t` the external outcome of iteration `t`;
`none` while still running after `fuel` iterations, else the final tool
context together with the outcome of the task. -/
def process_video_loop (conn : Nat → Bool) (script : Nat → IterOutcome) :
    AssistantFunction → Nat → Nat → Option (AssistantFunction × Except String Unit)
  | _, _, 0 => none
  | s, t, fuel + 1 =>
    if conn t then
      match process_video_iter s (script t) with
      | (s2, Except.ok ()) => process_video_loop conn script s2 (t + 1) fuel
      | (s2, Except.error _) => process_video_loop conn script s2 (t + 1) fuel
    else some (s, Except.ok ())

/-- `process_video()` as spawned by the entrypoint, starting from the
current tool-context state at iteration 0. -/
def process_video (conn : Nat → Bool) (script : Nat → IterOutcome)
    (s : AssistantFunction) (fuel : Nat) :
    Option (AssistantFunction × Except String Unit) :=
  process_video_loop conn script s 0 fuel

/-- The observable lifecycle steps of `entrypoint`, in the order the
awaits appear in the source. -/
inductive Event where
  | connect
  | buildAgent
  | buildToolContext
  | buildSession
  | startSession
  | greet
  | startVideoTask
  | idleSleep
  | cancelVideoTask
  | awaitVideoTask
  | suppressCancelled
deriving DecidableEq

/-- How `await video_task` settles in the `finally` block after
`video_task.cancel()`: the await raises `asyncio.CancelledError`, or the
task had already completed, or it had already failed with some other
error. -/
inductive TaskAwaitResult where
  | cancelled
  | completed
  | failed (e : String)
deriving DecidableEq

/-- The `while connection_state == CONN_CONNECTED: await asyncio.sleep(1)`
idle loop of `entrypoint`: one `idleSleep` event per iteration; `none`
while still running after `fuel` checks. -/
def idle_loop (conn : Nat → Bool) : Nat → Nat → Option (List Event)
  | _, 0 => none
  | t, fuel + 1 =>
    if conn t then
      (idle_loop conn (t + 1) fuel).map fun es => Event.idleSleep :: es
    else some []

/-- The `finally` block of `entrypoint`: `video_task.cancel()`, then
`await video_task` inside a `try` whose `except asyncio.CancelledError`
clause swallows the cancellation; any other error propagates. -/
def entrypoint_finally (r : TaskAwaitResult) : List Event × Except String Unit :=
  match r with
  | .cancelled =>
    ([Event.cancelVideoTask, Event.awaitVideoTask, Event.suppressCancelled],
      Except.ok ())
  | .completed =>
    ([Event.cancelVideoTask, Event.awaitVideoTask], Except.ok ())
  | .failed e =>
    ([Event.cancelVideoTask, Event.awaitVideoTask], Except.error e)

/-- `entrypoint(ctx)` as an event trace: connect, build the agent and
the tool context, build and start the session, greet, spawn the video
task, idle until the connection check fails, then run the `finally`
block. `taskResult` is how the awaited video task settles; `none` while
the idle loop is still running after `fuel` checks. -/
def entrypoint (conn : Nat → Bool) (taskResult : TaskAwaitResult)
    (fuel : Nat) : Option (List Event × Except String Unit) :=
  (idle_loop conn 0 fuel).map fun idles =>
    ([Event.connect, Event.buildAgent, Event.buildToolContext,
        Event.buildSession, Event.startSession, Event.greet,
        Event.startVideoTask]
      ++ idles ++ (entrypoint_finally taskResult).1,
      (entrypoint_finally taskResult).2)

/-! ### Helper lemmas -/

lemma findSome?_exists {α β : Type} (f : α → Option β) (b : β) :
    ∀ l : List α, l.findSome? f = some b → ∃ a ∈ l, f a = some b := by
  intro l
  induction l with
  | nil => intro h; simp [List.findSome?_nil] at h
  | cons x xs ih =>
    intro h
    rw [List.findSome?_cons] at h
    cases hx : f x with
    | some y =>
      rw [hx] at h
      have h2 : some y = some b := h
      exact ⟨x, List.mem_cons_self x xs, by rw [hx]; exact h2⟩
    | none =>
      rw [hx] at h
      have h2 : xs.findSome? f = some b := h
      obtain ⟨a, ha, hfa⟩ := ih h2
      exact ⟨a, List.mem_cons_of_mem x ha, hfa⟩

lemma find_video_track_sound (room : Room) (t : Track)
    (h : find_video_track room = some t) :
    t.isRemoteVideo = true ∧
    ∃ p ∈ room.remote_participants, ∃ pub ∈ p.track_publications,
      pub.track = some t := by
  obtain ⟨p, hp, hfp⟩ := findSome?_exists _ _ _ h
  obtain ⟨pub, hpub, hf⟩ := findSome?_exists _ _ _ hfp
  cases htr : pub.track with
  | none => rw [htr] at hf; simp at hf
  | some u =>
    rw [htr] at hf
    have hf2 : (if u.isRemoteVideo then some u else none) = some t := hf
    by_cases hu : u.isRemoteVideo
    · rw [if_pos hu] at hf2
      obtain rfl : u = t := by injection hf2
      exact ⟨hu, p, hp, pub, hpub, htr⟩
    · rw [if_neg hu] at hf2
      simp at hf2

lemma get_video_track_loop_isSome (snap : Nat → Room) :
    ∀ (fuel i : Nat),
      (∃ k, k < fuel ∧ find_video_track (snap (i + k)) ≠ none) →
      ((get_video_track_loop snap i fuel).1).isSome = true := by
  intro fuel
  induction fuel with
  | zero =>
    intro i h
    obtain ⟨k, hk, _⟩ := h
    omega
  | succ n ih =>
    intro i h
    obtain ⟨k, hk, hne⟩ := h
    rw [get_video_track_loop]
    cases hfind : find_video_track (snap i) with
    | some t => rfl
    | none =>
      apply ih
      cases k with
      | zero =>
        rw [Nat.add_zero] at hne
        exact absurd hfind hne
      | succ m =>
        refine ⟨m, by omega, ?_⟩
        rw [show i + 1 + m = i + (m + 1) by omega]
        exact hne

lemma get_video_track_loop_none (snap : Nat → Room) :
    ∀ (fuel i : Nat),
      (∀ k, k < fuel → find_video_track (snap (i + k)) = none) →
      get_video_track_loop snap i fuel = (none, i + fuel) := by
  intro fuel
  induction fuel with
  | zero => intro i _; rw [get_video_track_loop, Nat.add_zero]
  | succ n ih =>
    intro i h
    rw [get_video_track_loop]
    have h0 : find_video_track (snap i) = none := by
      have := h 0 (Nat.succ_pos n)
      rwa [Nat.add_zero] at this
    rw [h0]
    show get_video_track_loop snap (i + 1) n = (none, i + (n + 1))
    have hrec := ih (i + 1) fun k hk => by
      rw [show i + 1 + k = i + (k + 1) by omega]
      exact h (k + 1) (by omega)
    rw [hrec, show i + 1 + n = i + (n + 1) by omega]

lemma get_video_track_loop_sound (snap : Nat → Room) :
    ∀ (fuel i : Nat) (t : Track),
      (get_video_track_loop snap i fuel).1 = some t →
      ∃ k, k < fuel ∧ find_video_track (snap (i + k)) = some t := by
  intro fuel
  induction fuel with
  | zero => intro i t h; rw [get_video_track_loop] at h; simp at h
  | succ n ih =>
    intro i t h
    rw [get_video_track_loop] at h
    cases hf : find_video_track (snap i) with
    | some u =>
      rw [hf] at h
      have h2 : some u = some t := h
      obtain rfl : u = t := by injection h2
      exact ⟨0, Nat.succ_pos n, by rw [Nat.add_zero]; exact hf⟩
    | none =>
      rw [hf] at h
      have h2 : (get_video_track_loop snap (i + 1) n).1 = some t := h
      obtain ⟨k, hk, hfk⟩ := ih (i + 1) t h2
      refine ⟨k + 1, by omega, ?_⟩
      rw [show i + (k + 1) = i + 1 + k by omega]
      exact hfk

lemma process_video_loop_ok (conn : Nat → Bool) (script : Nat → IterOutcome) :
    ∀ (fuel : Nat) (s : AssistantFunction) (t : Nat)
      (r : AssistantFunction × Except String Unit),
      process_video_loop conn script s t fuel = some r →
      r.2 = Except.ok () := by
  intro fuel
  induction fuel with
  | zero => intro s t r h; rw [process_video_loop] at h; exact absurd h (by simp)
  | succ n ih =>
    intro s t r h
    rw [process_video_loop] at h
    by_cases hc : conn t
    · rw [if_pos hc] at h
      rcases hit : process_video_iter s (script t) with ⟨s2, r2⟩
      rw [hit] at h
      cases r2 with
      | ok u =>
        cases u
        exact ih s2 (t + 1) r h
      | error e =>
        exact ih s2 (t + 1) r h
    · rw [if_neg hc] at h
      have h2 : r = (s, Except.ok ()) := by injection h with h3; exact h3.symm
      rw [h2]

lemma idle_loop_isSome (conn : Nat → Bool) :
    ∀ (fuel t : Nat), (∃ k, k < fuel ∧ conn (t + k) = false) →
      ∃ es, idle_loop conn t fuel = some es := by
  intro fuel
  induction fuel with
  | zero =>
    intro t h
    obtain ⟨k, hk, _⟩ := h
    omega
  | succ n ih =>
    intro t h
    obtain ⟨k, hk, hc⟩ := h
    rw [idle_loop]
    by_cases h0 : conn t
    · rw [if_pos h0]
      have hk0 : k ≠ 0 := by
        intro heq
        rw [heq, Nat.add_zero] at hc
        rw [h0] at hc
        exact Bool.noConfusion hc
      obtain ⟨m, rfl⟩ : ∃ m, k = m + 1 := ⟨k - 1, by omega⟩
      obtain ⟨es, hes⟩ := ih (t + 1) ⟨m, by omega, by
        rw [show t + 1 + m = t + (m + 1) by omega]; exact hc⟩
      exact ⟨Event.idleSleep :: es, by rw [hes]; rfl⟩
    · rw [if_neg h0]
      exact ⟨[], rfl⟩

lemma idle_loop_replicate (conn : Nat → Bool) :
    ∀ (fuel t : Nat) (es : List Event), idle_loop conn t fuel = some es →
      ∃ k, es = List.replicate k Event.idleSleep := by
  intro fuel
  induction fuel with
  | zero => intro t es h; rw [idle_loop] at h; exact absurd h (by simp)
  | succ n ih =>
    intro t es h
    rw [idle_loop] at h
    by_cases h0 : conn t
    · rw [if_pos h0] at h
      cases hrec : idle_loop conn (t + 1) n with
      | none => rw [hrec] at h; exact absurd h (by simp)
      | some es2 =>
        rw [hrec] at h
        have h2 : Event.idleSleep :: es2 = es := by injection h
        obtain ⟨k, hk⟩ := ih (t + 1) es2 hrec
        exact ⟨k + 1, by rw [← h2, hk]; rfl⟩
    · rw [if_neg h0] at h
      have h2 : ([] : List Event) = es := by injection h
      exact ⟨0, h2.symm⟩

lemma entrypoint_finally_shape (r : TaskAwaitResult) :
    (entrypoint_finally r).1 =
      Event.cancelVideoTask :: Event.awaitVideoTask ::
        ((entrypoint_finally r).1.drop 2) := by
  cases r <;> rfl

/-! ### Claim theorems -/

/-- C1: `analyze_image` returns exactly the fixed I-can-see-the-current-
video-feed string when a frame is cached in `latest_image`, and exactly
the fixed no-access-to-any-images string when `latest_image` is `None`,
for every triggering user message; the two literals below match the
source character for character (\x27 denotes the apostrophe). -/
theorem analyze_image_result (s : AssistantFunction) (msg : String) :
    (s.latest_image.isSome = true →
      (analyze_image s msg).1 =
        "I can see the current video feed. Let me analyze what\x27s visible.") ∧
    (s.latest_image = none →
      (analyze_image s msg).1 =
        "I don\x27t currently have access to any images to analyze.") := by
  constructor
  · intro h
    simp [analyze_image, h]
  · intro h
    simp [analyze_image, h]

/-- Witness for C1 at a concrete cached frame and at the empty cache. -/
theorem analyze_image_result_witness :
    (analyze_image { latest_image := some ⟨0⟩ } "look at this").1 =
      "I can see the current video feed. Let me analyze what\x27s visible." ∧
    (analyze_image AssistantFunction.init "look at this").1 =
      "I don\x27t currently have access to any images to analyze." :=
  ⟨(analyze_image_result { latest_image := some ⟨0⟩ } "look at this").1 rfl,
   (analyze_image_result AssistantFunction.init "look at this").2 rfl⟩

/-- C3: the cache is a single `Option` field, so it holds at most one
frame; `update_image` overwrites it with the delivered frame; after any
delivered sequence ending in `f` the cache equals `some f` (the most
recent frame, no history); and updating twice with the same frame equals
updating once (idempotence). -/
theorem update_image_cache (s : AssistantFunction) (f g : VideoFrame)
    (fs : List VideoFrame) :
    (update_image s f).latest_image = some f ∧
    ((fs ++ [f]).foldl update_image s).latest_image = some f ∧
    update_image (update_image s g) g = update_image s g := by
  refine ⟨rfl, ?_, rfl⟩
  rw [List.foldl_append]
  rfl

/-- C6: two-run noninterference of `analyze_image` — whenever a frame is
cached, the returned string is the same for any two cached frames and
any two trigger messages, so no image content influences the result. -/
theorem analyze_image_noninterference (s1 s2 : AssistantFunction)
    (m1 m2 : String) (h1 : s1.latest_image.isSome = true)
    (h2 : s2.latest_image.isSome = true) :
    (analyze_image s1 m1).1 = (analyze_image s2 m2).1 := by
  simp [analyze_image, h1, h2]

/-- Witness for C6 at two distinct cached frames and messages. -/
theorem analyze_image_noninterference_witness :
    (analyze_image { latest_image := some ⟨0⟩ } "describe this").1 =
    (analyze_image { latest_image := some ⟨1⟩ } "what do you see").1 :=
  analyze_image_noninterference
    { latest_image := some ⟨0⟩ } { latest_image := some ⟨1⟩ }
    "describe this" "what do you see" rfl rfl

/-- C8: `analyze_image` is read-only on the tool-context state — the
state after the call equals the state before it, for every prior state
and message; only `update_image` writes the cached frame. -/
theorem analyze_image_readonly (s : AssistantFunction) (msg : String) :
    (analyze_image s msg).2 = s := by
  unfold analyze_image
  split <;> rfl

lemma get_video_track_loop_found (snap : Nat → Room) (i fuel : Nat)
    (t : Track) (h : find_video_track (snap i) = some t) :
    get_video_track_loop snap i (fuel + 1) = (some t, i) := by
  rw [get_video_track_loop, h]

/-- C2: `get_video_track` returns a track whenever some scan within the
30-attempt polling window finds a published remote video track, and
returns `None` with exactly 30 one-second sleeps performed when no scan
within the window finds one. -/
theorem get_video_track_polling (snap : Nat → Room) :
    ((∃ i, i < 30 ∧ find_video_track (snap i) ≠ none) →
      ((get_video_track snap).1).isSome = true) ∧
    ((∀ i, i < 30 → find_video_track (snap i) = none) →
      get_video_track snap = (none, 30)) := by
  constructor
  · intro h
    obtain ⟨i, hi, hne⟩ := h
    exact get_video_track_loop_isSome snap 30 0
      ⟨i, hi, by rw [Nat.zero_add]; exact hne⟩
  · intro h
    have h2 := get_video_track_loop_none snap 30 0 fun k hk => by
      rw [Nat.zero_add]; exact h k hk
    rw [get_video_track, h2]

/-- Witness for C2: a room that always has a published remote video
track, and a room that never has any participant. -/
theorem get_video_track_polling_witness :
    ((get_video_track (fun _ =>
        { remote_participants := [{ track_publications :=
            [{ track := some (Track.remoteVideo "TR_v1") }] }] })).1).isSome
      = true ∧
    get_video_track (fun _ => { remote_participants := [] }) = (none, 30) :=
  ⟨(get_video_track_polling _).1 ⟨0, by omega, by decide⟩,
   (get_video_track_polling _).2 fun _ _ => rfl⟩

/-- C9: if a matching remote video track is already present on the very
first scan, `get_video_track` returns it with zero one-second sleeps
performed. -/
theorem get_video_track_immediate (snap : Nat → Room) (t : Track)
    (h : find_video_track (snap 0) = some t) :
    get_video_track snap = (some t, 0) := by
  rw [get_video_track]
  show get_video_track_loop snap 0 (29 + 1) = (some t, 0)
  exact get_video_track_loop_found snap 0 29 t h

/-- Witness for C9 at a room whose first snapshot has a video track. -/
theorem get_video_track_immediate_witness :
    get_video_track (fun _ =>
        { remote_participants := [{ track_publications :=
            [{ track := some (Track.remoteVideo "TR_v3") }] }] }) =
      (some (Track.remoteVideo "TR_v3"), 0) :=
  get_video_track_immediate _ _ rfl

/-- C10: every non-`None` result of `get_video_track` is a remote video
track obtained from some publication, of some remote participant, whose
`track` field was non-`None` during one of the 30 scans; no audio track
or `None`-track publication is ever returned. -/
theorem get_video_track_sound (snap : Nat → Room) (t : Track)
    (h : (get_video_track snap).1 = some t) :
    t.isRemoteVideo = true ∧
    ∃ i, i < 30 ∧ ∃ p ∈ (snap i).remote_participants,
      ∃ pub ∈ p.track_publications, pub.track = some t := by
  obtain ⟨k, hk, hfk⟩ := get_video_track_loop_sound snap 30 0 t h
  rw [Nat.zero_add] at hfk
  obtain ⟨hvid, p, hp, pub, hpub, htr⟩ := find_video_track_sound (snap k) t hfk
  exact ⟨hvid, k, hk, p, hp, pub, hpub, htr⟩

/-- Witness for C10 at a room carrying one remote video track. -/
theorem get_video_track_sound_witness :
    (Track.remoteVideo "TR_v2").isRemoteVideo = true ∧
    ∃ i, i < 30 ∧ ∃ p ∈ ((fun (_ : Nat) =>
        ({ remote_participants := [{ track_publications :=
            [{ track := some (Track.remoteVideo "TR_v2") }] }] } : Room))
          i).remote_participants,
      ∃ pub ∈ p.track_publications,
        pub.track = some (Track.remoteVideo "TR_v2") :=
  get_video_track_sound _ _ (by decide)

/-- C5: the video task never completes with a propagated error — every
result it can settle with is `ok` — and when the connection check passes
the loop continues into the next iteration regardless of whether the
the body of the current iteration raised (the inner handler catches and
retries instead of terminating). -/
theorem process_video_never_propagates (conn : Nat → Bool)
    (script : Nat → IterOutcome) (s : AssistantFunction) (t fuel : Nat) :
    (∀ r, process_video conn script s fuel = some r →
      r.2 = Except.ok ()) ∧
    (conn t = true →
      process_video_loop conn script s t (fuel + 1) =
        process_video_loop conn script
          ((process_video_iter s (script t)).1) (t + 1) fuel) := by
  constructor
  · intro r h
    exact process_video_loop_ok conn script fuel s 0 r h
  · intro hc
    rw [process_video_loop, if_pos hc]
    cases hit : process_video_iter s (script t) with
    | mk s2 r2 =>
      cases r2 with
      | ok u => cases u; rfl
      | error e => rfl

/-- Witness for C5: a run whose only iteration raises "camera died" yet
settles with `ok` once the connection drops, and a one-step unfolding of
the loop across that raising iteration. -/
theorem process_video_never_propagates_witness :
    (({ latest_image := some ⟨5⟩ } : AssistantFunction),
        Except.ok ()).2 = (Except.ok () : Except String Unit) ∧
    process_video_loop (fun t => t == 0)
        (fun _ => IterOutcome.stream [⟨5⟩] (some "camera died"))
        AssistantFunction.init 0 (1 + 1) =
      process_video_loop (fun t => t == 0)
        (fun _ => IterOutcome.stream [⟨5⟩] (some "camera died"))
        ((process_video_iter AssistantFunction.init
          (IterOutcome.stream [⟨5⟩] (some "camera died"))).1) (0 + 1) 1 :=
  ⟨(process_video_never_propagates (fun t => t == 0)
      (fun _ => IterOutcome.stream [⟨5⟩] (some "camera died"))
      AssistantFunction.init 0 2).1
      ({ latest_image := some ⟨5⟩ }, Except.ok ()) rfl,
   (process_video_never_propagates (fun t => t == 0)
      (fun _ => IterOutcome.stream [⟨5⟩] (some "camera died"))
      AssistantFunction.init 0 1).2 rfl⟩

/-- C4: whenever the idle loop observes a disconnected state within its
fuel, the entrypoint terminates with outcome `ok` — the cancellation
error raised by awaiting the cancelled video task is swallowed — and its
trace ends with cancelling the video task, awaiting it, and suppressing
the `CancelledError`. -/
theorem entrypoint_shutdown_cancels (conn : Nat → Bool) (fuel k : Nat)
    (hk : k < fuel) (hconn : conn k = false) :
    ∃ es, entrypoint conn TaskAwaitResult.cancelled fuel =
        some (es, Except.ok ()) ∧
      ∃ pre, es = pre ++
        [Event.cancelVideoTask, Event.awaitVideoTask,
          Event.suppressCancelled] := by
  obtain ⟨idles, hidle⟩ := idle_loop_isSome conn fuel 0
    ⟨k, hk, by rw [Nat.zero_add]; exact hconn⟩
  refine ⟨[Event.connect, Event.buildAgent, Event.buildToolContext,
      Event.buildSession, Event.startSession, Event.greet,
      Event.startVideoTask] ++ idles ++
      [Event.cancelVideoTask, Event.awaitVideoTask,
        Event.suppressCancelled], ?_, ?_⟩
  · rw [entrypoint, hidle]
    rfl
  · exact ⟨[Event.connect, Event.buildAgent, Event.buildToolContext,
      Event.buildSession, Event.startSession, Event.greet,
      Event.startVideoTask] ++ idles, rfl⟩

/-- Witness for C4 with a connection that is already down at the first
idle check. -/
theorem entrypoint_shutdown_cancels_witness :
    ∃ es, entrypoint (fun _ => false) TaskAwaitResult.cancelled 1 =
        some (es, Except.ok ()) ∧
      ∃ pre, es = pre ++
        [Event.cancelVideoTask, Event.awaitVideoTask,
          Event.suppressCancelled] :=
  entrypoint_shutdown_cancels (fun _ => false) 1 0 (by omega) rfl

/-- C7: every terminating trace of the entrypoint is exactly connect,
build agent, build tool context, build session, start session, greet,
start the video task, then some number of idle sleeps, then cancel the
video task and await it; in particular the greeting precedes the
creation of the video-watch task. -/
theorem entrypoint_event_order (conn : Nat → Bool) (r : TaskAwaitResult)
    (fuel : Nat) (es : List Event) (out : Except String Unit)
    (h : entrypoint conn r fuel = some (es, out)) :
    ∃ k tail, es =
      [Event.connect, Event.buildAgent, Event.buildToolContext,
        Event.buildSession, Event.startSession, Event.greet,
        Event.startVideoTask]
      ++ List.replicate k Event.idleSleep
      ++ Event.cancelVideoTask :: Event.awaitVideoTask :: tail := by
  rw [entrypoint] at h
  cases hid : idle_loop conn 0 fuel with
  | none => rw [hid] at h; exact absurd h (by simp)
  | some idles =>
    rw [hid] at h
    obtain ⟨k, rfl⟩ := idle_loop_replicate conn fuel 0 idles hid
    have h4 : some (([Event.connect, Event.buildAgent,
        Event.buildToolContext, Event.buildSession, Event.startSession,
        Event.greet, Event.startVideoTask]
        ++ List.replicate k Event.idleSleep ++ (entrypoint_finally r).1,
        (entrypoint_finally r).2) :
        List Event × Except String Unit) = some (es, out) := h
    injection h4 with h5
    injection h5 with he ho
    cases r with
    | cancelled => exact ⟨k, [Event.suppressCancelled], he.symm⟩
    | completed => exact ⟨k, [], he.symm⟩
    | failed e => exact ⟨k, [], he.symm⟩

/-- Witness for C7 with an immediately-disconnected room and a video
task that completed before the await. -/
theorem entrypoint_event_order_witness :
    ∃ k tail,
      [Event.connect, Event.buildAgent, Event.buildToolContext,
        Event.buildSession, Event.startSession, Event.greet,
        Event.startVideoTask, Event.cancelVideoTask,
        Event.awaitVideoTask] =
      [Event.connect, Event.buildAgent, Event.buildToolContext,
        Event.buildSession, Event.startSession, Event.greet,
        Event.startVideoTask]
      ++ List.replicate k Event.idleSleep
      ++ Event.cancelVideoTask :: Event.awaitVideoTask :: tail :=
  entrypoint_event_order (fun _ => false) TaskAwaitResult.completed 1
    [Event.connect, Event.buildAgent, Event.buildToolContext,
      Event.buildSession, Event.startSession, Event.greet,
      Event.startVideoTask, Event.cancelVideoTask, Event.awaitVideoTask]
    (Except.ok ()) rfl

end VoiceAssistant
